import Mathlib

/-!
Shallow embedding of the MultiversX ABI response decoder (`AbiTypeConverter`,
src/unnamed/part_008) and of the ABI-to-Warp generator (`AbiWarpGenerator`,
src/src/features/abi/helpers/abi-warp-generator.ts), with the theorems that
settle the frozen claims about them.

Buffers are lists of bytes (`List Nat`, each entry `< 256` where it matters).
JavaScript exceptions are modelled by `Except String`; the unbounded recursion
of the source (which can loop forever on pathological inputs, e.g. a `List<T>`
whose element decode consumes zero bytes) is modelled with an explicit fuel
parameter: running out of fuel yields a distinguished error, and every claim is
settled at a fuel large enough for the runs it talks about.
-/

/-- Big-endian interpretation of a byte list, as produced by the Node
`Buffer.readUInt*BE` family. -/
def bytesToNatBE (data : List Nat) : Nat :=
  data.foldl (fun acc b => acc * 256 + b) 0

/-- Model of Node `Buffer.readUInt8(0)`: the first byte; `ERR_OUT_OF_RANGE`
becomes an error value. -/
def readUInt8E : List Nat → Except String Nat
  | [] => .error "readUInt8 offset out of range"
  | b :: _ => .ok b

/-- Model of Node `Buffer.readUInt16BE(0)`. -/
def readUInt16BEE (data : List Nat) : Except String Nat :=
  if 2 ≤ data.length then .ok (bytesToNatBE (data.take 2))
  else .error "readUInt16BE offset out of range"

/-- Model of Node `Buffer.readUInt32BE(0)`. -/
def readUInt32BEE (data : List Nat) : Except String Nat :=
  if 4 ≤ data.length then .ok (bytesToNatBE (data.take 4))
  else .error "readUInt32BE offset out of range"

/-- Model of Node `Buffer.readBigUInt64BE(0)`. -/
def readUInt64BEE (data : List Nat) : Except String Nat :=
  if 8 ≤ data.length then .ok (bytesToNatBE (data.take 8))
  else .error "readBigUInt64BE offset out of range"

/-- Lowercase hex digit for a value `< 16`. -/
def hexDigitChar (n : Nat) : Char :=
  if n < 10 then Char.ofNat (48 + n) else Char.ofNat (87 + n)

/-- Model of Node `buffer.toString("hex")`: two lowercase hex digits per byte. -/
def hexOfBytes (data : List Nat) : String :=
  String.mk (data.flatMap fun b => [hexDigitChar (b / 16), hexDigitChar (b % 16)])

/-- Value of a lowercase hex digit character. -/
def hexDigitVal (c : Char) : Nat :=
  if 97 ≤ c.toNat then c.toNat - 87 else c.toNat - 48

/-- Model of the JavaScript `BigInt("0x" ++ s)` conversion for a lowercase hex
string `s` (the only shape the source feeds it). -/
def natOfHexStr (s : String) : Nat :=
  s.data.foldl (fun acc c => acc * 16 + hexDigitVal c) 0

/-- Model of Node `buffer.toString("ascii")`: the high bit of every byte is
cleared and the low 7 bits become a character. -/
def asciiOfBytes (data : List Nat) : String :=
  String.mk (data.map fun b => Char.ofNat (b % 128))

/-!
JavaScript string primitives. The code under verification manipulates ASCII
type-name strings with `startsWith`, `slice`, `trim`, `split`, `includes` and
friends; they are modelled here on the character list underlying the Lean
string (for ASCII strings, JavaScript UTF-16 code-unit indices and characters
coincide). -/

/-- JavaScript `s.startsWith(p)`. -/
def startsWithF (s p : String) : Bool :=
  p.data.isPrefixOf s.data

/-- JavaScript `s.endsWith(p)`. -/
def endsWithF (s p : String) : Bool :=
  p.data.isSuffixOf s.data

/-- JavaScript `s.length`. -/
def lengthF (s : String) : Nat :=
  s.data.length

/-- JavaScript `s.slice(n)` (drop the first `n` characters). -/
def dropF (s : String) (n : Nat) : String :=
  String.mk (s.data.drop n)

/-- JavaScript `s.slice(0, -n)` (drop the last `n` characters). -/
def dropRightF (s : String) (n : Nat) : String :=
  String.mk (s.data.take (s.data.length - n))

/-- JavaScript `s.slice(0, n)` (take the first `n` characters). -/
def takeF (s : String) (n : Nat) : String :=
  String.mk (s.data.take n)

/-- Whitespace recognizer of JavaScript `trim` (the whitespace that occurs in
ABI type names). -/
def isWhiteF (c : Char) : Bool :=
  c == ' ' || c == '\t' || c == '\n' || c == '\r'

/-- JavaScript `s.trim()`. -/
def trimF (s : String) : String :=
  String.mk (((s.data.dropWhile isWhiteF).reverse.dropWhile isWhiteF).reverse)

/-- Splitting loop of `splitOnF`; the counter starts at the length of the
remaining text plus one and every step consumes at least one character. -/
def splitGo : Nat → List Char → List Char → List Char → List (List Char)
  | 0, _, _, cur => [cur.reverse]
  | fuel + 1, rem, sep, cur =>
    match rem with
    | [] => [cur.reverse]
    | c :: rest =>
      if sep.isPrefixOf (c :: rest) then
        cur.reverse :: splitGo fuel ((c :: rest).drop sep.length) sep []
      else
        splitGo fuel rest sep (c :: cur)

/-- JavaScript `s.split(sep)` for a non-empty separator. -/
def splitOnF (s sep : String) : List String :=
  if sep == "" then [s]
  else (splitGo (s.data.length + 1) s.data sep.data []).map String.mk

/-- JavaScript `s.includes(c)` for a single character. -/
def containsCharF (s : String) (c : Char) : Bool :=
  s.data.contains c

/-- JavaScript `s.includes(pat)` substring test. -/
def includesStr (s pat : String) : Bool :=
  s.data.tails.any (fun t => pat.data.isPrefixOf t)

/-- Sequential effectful map (JavaScript `Array.prototype.map` with thrown
exceptions propagating out of the whole map). -/
def mapME (f : α → Except ε β) : List α → Except ε (List β)
  | [] => .ok []
  | x :: xs =>
    match f x with
    | .error e => .error e
    | .ok b =>
      match mapME f xs with
      | .error e => .error e
      | .ok bs => .ok (b :: bs)

/-- The standard base64 alphabet. -/
def base64Chars : List Char :=
  "ABCDEFGHIJKLMNOPQRSTUVWXYZabcdefghijklmnopqrstuvwxyz0123456789+/".data

/-- Index of a character in the base64 alphabet. -/
def base64Index (c : Char) : Option Nat :=
  base64Chars.indexOf? c

/-- Bit-accumulating core of base64 decoding: consumes 6-bit groups, emits
8-bit bytes. -/
def b64DecodeGo : List Nat → Nat → Nat → List Nat
  | [], _, _ => []
  | g :: gs, acc, nbits =>
    let acc2 := acc * 64 + g
    let nbits2 := nbits + 6
    if 8 ≤ nbits2 then
      (acc2 / 2 ^ (nbits2 - 8)) :: b64DecodeGo gs (acc2 % 2 ^ (nbits2 - 8)) (nbits2 - 8)
    else
      b64DecodeGo gs acc2 nbits2

/-- Model of Node `Buffer.from(s, "base64")`: characters outside the alphabet
(including padding and whitespace) are ignored, as Node does. -/
def base64DecodeBytes (s : String) : List Nat :=
  b64DecodeGo (s.data.filterMap base64Index) 0 0

/-- Character at an index of the base64 alphabet. -/
def b64At (n : Nat) : Char :=
  base64Chars.getD n 'A'

/-- Model of Node `buffer.toString("base64")`: standard encoding with `=`
padding. -/
def base64EncodeBytes : List Nat → String
  | [] => ""
  | [a] =>
    String.mk [b64At (a / 4), b64At (a % 4 * 16)] ++ "=="
  | [a, b] =>
    String.mk [b64At (a / 4), b64At (a % 4 * 16 + b / 16), b64At (b % 16 * 4)] ++ "="
  | a :: b :: c :: rest =>
    String.mk [b64At (a / 4), b64At (a % 4 * 16 + b / 16), b64At (b % 16 * 4 + c / 64),
      b64At (c % 64)] ++ base64EncodeBytes rest

/-- The Unicode replacement character. -/
def replChar : Char := Char.ofNat 0xFFFD

/-- Model of Node `buffer.toString()` (utf8): standard UTF-8 decoding, with the
replacement character for malformed sequences. Never reached by any claim. -/
def utf8OfBytes : List Nat → List Char
  | [] => []
  | b :: rest =>
    if b < 0x80 then Char.ofNat b :: utf8OfBytes rest
    else if 0xC0 ≤ b && b ≤ 0xDF then
      match rest with
      | c :: r2 =>
        if 0x80 ≤ c && c ≤ 0xBF then
          Char.ofNat ((b - 0xC0) * 64 + (c - 0x80)) :: utf8OfBytes r2
        else replChar :: utf8OfBytes (c :: r2)
      | [] => [replChar]
    else if 0xE0 ≤ b && b ≤ 0xEF then
      match rest with
      | c :: d :: r2 =>
        if (0x80 ≤ c && c ≤ 0xBF) && (0x80 ≤ d && d ≤ 0xBF) then
          Char.ofNat (((b - 0xE0) * 64 + (c - 0x80)) * 64 + (d - 0x80)) :: utf8OfBytes r2
        else replChar :: utf8OfBytes (c :: d :: r2)
      | _ => [replChar]
    else if 0xF0 ≤ b && b ≤ 0xF7 then
      match rest with
      | c :: d :: e :: r2 =>
        if (0x80 ≤ c && c ≤ 0xBF) && ((0x80 ≤ d && d ≤ 0xBF) && (0x80 ≤ e && e ≤ 0xBF)) then
          Char.ofNat ((((b - 0xF0) * 64 + (c - 0x80)) * 64 + (d - 0x80)) * 64 + (e - 0x80))
            :: utf8OfBytes r2
        else replChar :: utf8OfBytes (c :: d :: e :: r2)
      | _ => [replChar]
    else replChar :: utf8OfBytes rest
termination_by data => data.length
decreasing_by all_goals (simp_all; try omega)

/-- Modelled from the spec: the external `@multiversx/sdk-core`
`Address.fromHex(h, "erd").bech32()` conversion used at §4.1 step 4 ("render it
in the chain's human-readable address encoding"). That library is not part of
this repository and no claim depends on the exact encoding, so it is modelled
as an injective tagging of the public-key hex string. -/
def bech32OfPubkeyHex (h : String) : String :=
  "erd1" ++ h

/-- Parsing options of `AbiTypeConverter` (`ParseOptions`, defaults from the
constructor). -/
structure ParseOptionsF where
  parseJson : Bool := true
  decodeBase64 : Bool := true

/-- A named, typed field of an ABI struct or enum variant. -/
structure AbiFieldF where
  name : String
  type : String

/-- An ABI enum variant; `fields` is `none` when the variant declares no
`fields` key (JavaScript `undefined`, falsy), `some fs` otherwise (an empty
array is truthy in the source). -/
structure AbiVariantF where
  name : String
  fields : Option (List AbiFieldF) := none

/-- A custom type registered under `abi.types`: an enum, a struct, a plain
array of type names (`Array.isArray` branch), or any other object shape (which
the source rejects as unsupported). -/
inductive AbiCustomTypeF where
  | enumT (variants : List AbiVariantF)
  | structT (fields : List AbiFieldF)
  | tupleT (types : List String)
  | otherT (kind : String)

/-- A declared input of an ABI endpoint. -/
structure AbiInputF where
  name : String
  type : String

/-- An ABI endpoint (`AbiEndpoint`, src/src/features/abi/types/abi.types.ts). -/
structure AbiEndpointF where
  name : String
  mutability : String
  docs : Option (List String) := none
  payableInTokens : Option (List String) := none
  inputs : Option (List AbiInputF) := none
  onlyOwner : Option Bool := none

/-- An ABI definition (`AbiDefinition`): contract name, endpoints and the
custom-type registry. -/
structure AbiDefinitionF where
  name : String
  endpoints : List AbiEndpointF := []
  types : List (String × AbiCustomTypeF) := []

/-- The state captured by an `AbiTypeConverter` instance: the ABI definition
and the parse options. -/
structure ConvState where
  abi : AbiDefinitionF
  options : ParseOptionsF := {}

/-- Lookup in the `abi.types` registry (JavaScript object-key access). -/
def lookupAbiType (abi : AbiDefinitionF) (ty : String) : Option AbiCustomTypeF :=
  (abi.types.find? (fun p => p.1 == ty)).map (fun p => p.2)

/-- Decoded JavaScript values produced by the decoder. `jsonParsed s`
represents the result of the external `JSON.parse(s)`-with-fallback call in
`safeJsonParse` (a Node builtin, kept opaque; no claim depends on it). -/
inductive JValue where
  | null : JValue
  | bool (b : Bool) : JValue
  | num (n : Nat) : JValue
  | str (s : String) : JValue
  | arr (items : List JValue) : JValue
  | obj (fields : List (String × JValue)) : JValue
  | jsonParsed (s : String) : JValue

/-- The values of the `AbiBaseType` enum, in declaration order
(src/src/features/abi/types/abi.types.ts). -/
def primitiveTypeValues : List String :=
  ["u8", "i8", "u16", "i16", "u32", "i32", "u64", "i64", "isize", "usize",
   "BigUint", "bool", "bytes", "Address", "TokenIdentifier",
   "EgldOrEsdtTokenIdentifier"]

/-- `AbiTypeConverter.isPrimitiveType`. -/
def isPrimitiveType (ty : String) : Bool :=
  primitiveTypeValues.contains ty

/-- The `NUMERIC_TYPES` constant of src/unnamed/part_008, in source order. -/
def numericTypes : List String :=
  ["u8", "i8", "u16", "i16", "u32", "i32", "u64", "i64", "BigUint", "isize", "usize"]

/-- `AbiTypeConverter.safeJsonParse` applied to a string already known to look
like JSON: returns the (opaque) parse result when `parseJson` is on, the
string otherwise. -/
def safeJsonParse (opts : ParseOptionsF) (value : String) : JValue :=
  if opts.parseJson then .jsonParsed value else .str value

/-- `AbiTypeConverter.isBase64`: decode from base64 and re-encode, then
compare with the trimmed input. -/
def isBase64 (str : String) : Bool :=
  base64EncodeBytes (base64DecodeBytes (trimF str)) == trimF str

/-- `AbiTypeConverter.extractGenericType`: `type.slice(wrapper.length, -1).trim()`. -/
def extractGenericType (type wrapper : String) : String :=
  trimF (dropRightF (dropF type (lengthF wrapper)) 1)

/-- The inner slice `objectType.slice(p.length + 1, -1).trim()` computed for a
`typeHandlers` entry with key `p` (the source appends `<` to the key before the
prefix test). -/
def handlerSubtype (objectType p : String) : String :=
  trimF (dropRightF (dropF objectType (lengthF p + 1)) 1)

/-- `AbiTypeConverter.readAddressType`: first 32 bytes as hex, rendered
bech32 with the erd prefix; consumes 32. -/
def readAddressType (data : List Nat) : Except String (JValue × Nat) :=
  .ok (.str (bech32OfPubkeyHex (hexOfBytes (data.take 32))), 32)

/-- `AbiTypeConverter.readTokenIdentifier`. -/
def readTokenIdentifier (data : List Nat) (originalIsPrimitive : Bool) :
    Except String (JValue × Nat) :=
  if originalIsPrimitive then .ok (.str (asciiOfBytes data), data.length)
  else do
    let length ← readUInt32BEE data
    .ok (.str (asciiOfBytes ((data.drop 4).take length)), length + 4)

/-- `AbiTypeConverter.readPrimitiveType`, case by case in source order. -/
def readPrimitiveType (opts : ParseOptionsF) (data : List Nat) (objectType : String)
    (originalIsPrimitive : Bool) : Except String (JValue × Nat) :=
  if objectType == "bytes" then
    if originalIsPrimitive then .ok (.str (asciiOfBytes data), data.length)
    else do
      let objLen ← readUInt32BEE data
      let value := asciiOfBytes ((data.drop 4).take objLen)
      if isBase64 value then
        let decoded := String.mk (utf8OfBytes (base64DecodeBytes value))
        if startsWithF decoded "\x7b" || startsWithF decoded "[" then
          .ok (safeJsonParse opts decoded, objLen + 4)
        else .ok (.str decoded, objLen + 4)
      else .ok (.str value, objLen + 4)
  else if objectType == "Address" then
    readAddressType data
  else if objectType == "u8" || objectType == "i8" || objectType == "usize"
      || objectType == "isize" then do
    let b ← readUInt8E data
    .ok (.num b, 1)
  else if objectType == "u16" || objectType == "i16" then do
    let v ← readUInt16BEE data
    .ok (.num v, 2)
  else if objectType == "u32" || objectType == "i32" then do
    let v ← readUInt32BEE data
    .ok (.num v, 4)
  else if objectType == "u64" || objectType == "i64" then do
    let v ← readUInt64BEE data
    .ok (.str (toString v), 8)
  else if objectType == "bool" then do
    let b ← readUInt8E data
    .ok (.bool (b != 0), 1)
  else if objectType == "TokenIdentifier" || objectType == "EgldOrEsdtTokenIdentifier" then
    readTokenIdentifier data originalIsPrimitive
  else if objectType == "BigUint" then
    if originalIsPrimitive then
      if data.isEmpty then .error "Cannot convert 0x to a BigInt"
      else .ok (.str (toString (natOfHexStr (hexOfBytes data))), data.length)
    else do
      let len ← readUInt32BEE data
      .ok (.str (hexOfBytes ((data.drop 4).take len)), len + 4)
  else .error ("Unsupported primitive type: " ++ objectType)

/-- The type of the decode callback threaded through the helper readers: a
single-buffer decode at one fuel level lower, with the
`originalTypeIsPrimitive` flag defaulted to `false` (every helper call site in
the source invokes `this.readHex` with two arguments). -/
abbrev ReadFn := List Nat → String → Except String (JValue × Nat)

/-- Loop of `AbiTypeConverter.readListType`: repeatedly decode the subtype
from the remaining tail until the buffer is exhausted. The extra counter
models the `while` loop; a run that terminates in JavaScript makes at most
`data.length` iterations (each consumes at least one byte), and a run in which
an iteration consumes zero bytes never terminates in JavaScript and exhausts
the counter here. -/
def readListGo (rd : ReadFn) : Nat → List Nat → String → Except String (List JValue × Nat)
  | 0, _, _ => .error "model: list loop fuel exhausted"
  | k + 1, data, subtype =>
    if data.isEmpty then .ok ([], 0)
    else do
      let (item, len) ← rd data subtype
      let (rest, total) ← readListGo rd k (data.drop len) subtype
      .ok (item :: rest, len + total)

/-- `AbiTypeConverter.readListType`, with the loop counter instantiated as
described at `readListGo`. -/
def readListType (rd : ReadFn) (data : List Nat) (subtype : String) :
    Except String (List JValue × Nat) :=
  readListGo rd (data.length + 1) data subtype

/-- `AbiTypeConverter.readMultiType`: decode each subtype in order from the
advancing tail (each subtype is trimmed at use, as in the source). -/
def readMultiType (rd : ReadFn) (data : List Nat) : List String → Except String (List JValue × Nat)
  | [] => .ok ([], 0)
  | t :: ts => do
    let (item, len) ← rd data (trimF t)
    let (rest, total) ← readMultiType rd (data.drop len) ts
    .ok (item :: rest, len + total)

/-- Field loop shared by `readStructType` and the fields branch of
`readEnumType`: decode each field type in declared order from the advancing
tail, recording values under the field names. -/
def readFieldsGo (rd : ReadFn) (data : List Nat) :
    List AbiFieldF → Except String (List (String × JValue) × Nat)
  | [] => .ok ([], 0)
  | f :: fs => do
    let (value, len) ← rd data f.type
    let (rest, total) ← readFieldsGo rd (data.drop len) fs
    .ok ((f.name, value) :: rest, len + total)

/-- `AbiTypeConverter.readStructType`. -/
def readStructType (rd : ReadFn) (data : List Nat) (fields : List AbiFieldF) :
    Except String (JValue × Nat) :=
  (readFieldsGo rd data fields).map (fun r => (.obj r.1, r.2))

/-- `AbiTypeConverter.readEnumType`: one discriminant byte selects the variant
by index; a variant without a `fields` key decodes to its bare name, otherwise
the fields are decoded from the tail into a one-key record. An out-of-range
discriminant is the JavaScript `TypeError` on `variant.fields`. -/
def readEnumType (rd : ReadFn) (data : List Nat) (variants : List AbiVariantF) :
    Except String (JValue × Nat) :=
  match data with
  | [] => .error "readUInt8 offset out of range"
  | discriminant :: rest =>
    match variants[discriminant]? with
    | none => .error "Cannot read properties of undefined (reading fields)"
    | some variant =>
      match variant.fields with
      | none => .ok (.str variant.name, 1)
      | some fs => do
        let (result, total) ← readFieldsGo rd rest fs
        .ok (.obj [(variant.name, .obj result)], 1 + total)

/-- `AbiTypeConverter.readOptionType`: empty buffer decodes to null consuming
nothing; a zero flag byte to null consuming one byte; otherwise the subtype is
decoded from the tail and one flag byte is added to its consumed length. -/
def readOptionType (rd : ReadFn) (data : List Nat) (subtype : String) :
    Except String (JValue × Nat) :=
  match data with
  | [] => .ok (.null, 0)
  | flag :: rest =>
    if flag == 0 then .ok (.null, 1)
    else do
      let (value, len) ← rd rest subtype
      .ok (value, len + 1)

/-- Digits-to-number conversion for the regex capture of `readArrayType`. -/
def digitsToNat (ds : List Char) : Nat :=
  ds.foldl (fun a c => a * 10 + (c.toNat - 48)) 0

/-- Validation and regex parse of `AbiTypeConverter.readArrayType`
(`array(\d+)<(.+)>` after the startsWith/includes guards). The source regex is
unanchored with a greedy group; it is modelled matched from the start of the
string, the greedy inner group spanning to the last closing angle bracket. -/
def parseArrayType (type : String) : Except String (Nat × String) :=
  if !(startsWithF type "array") || !(containsCharF type '<') then
    .error "Invalid array type format"
  else
    let afterTag := type.data.drop 5
    let digits := afterTag.takeWhile (fun c => c.isDigit)
    match digits, afterTag.dropWhile (fun c => c.isDigit) with
    | [], _ => .error "Invalid array type format"
    | ds, '<' :: inner =>
      match inner.reverse.indexOf? '>' with
      | none => .error "Invalid array type format"
      | some r =>
        let content := inner.take (inner.length - 1 - r)
        if content.isEmpty then .error "Invalid array type format"
        else .ok (digitsToNat ds, String.mk content)
    | _, _ => .error "Invalid array type format"

/-- Loop of `AbiTypeConverter.readArrayType`: decode exactly `count`
consecutive subtype values, summing consumed lengths. -/
def readArrayGo (rd : ReadFn) (data : List Nat) (subtype : String) :
    Nat → Except String (List JValue × Nat)
  | 0 => .ok ([], 0)
  | c + 1 => do
    let (item, len) ← rd data subtype
    let (rest, total) ← readArrayGo rd (data.drop len) subtype c
    .ok (item :: rest, len + total)

/-- The catch block of `AbiTypeConverter.readHex`: every error thrown while
decoding a type is re-thrown wrapped with that type's name. -/
def wrapTypeError (objectType : String) : Except String (JValue × Nat) → Except String (JValue × Nat)
  | .ok r => .ok r
  | .error m => .error ("Failed to parse type " ++ objectType ++ ": " ++ m)

/-- `AbiTypeConverter.readHex`, branch for branch in source order: empty-data
policy, `optional<` strip, primitive dispatch, `Address`, `List<`, the
`typeHandlers` table (`array`, `vec`, `Vec`, `variadic`, `Option`, `multi`,
`tuple`, in `Object.entries` order), the `abi.types` registry, and the
unsupported-type error, everything inside the try/catch that wraps errors with
the offending type name. The first argument of the recursion is the fuel. -/
def readHex (st : ConvState) : Nat → List Nat → String → Bool → Except String (JValue × Nat)
  | 0, _, _, _ => .error "model: recursion fuel exhausted"
  | n + 1, data, objectType, originalTypeIsPrimitive =>
    wrapTypeError objectType (
      if data.isEmpty then
        if originalTypeIsPrimitive && numericTypes.contains objectType then
          .ok (if includesStr objectType "Big" then .str "0" else .num 0, 0)
        else .ok (.null, 0)
      else if startsWithF objectType "optional<" then
        readHex st n data (extractGenericType objectType "optional<") false
      else if isPrimitiveType objectType then
        readPrimitiveType st.options data objectType originalTypeIsPrimitive
      else if objectType == "Address" then
        readAddressType data
      else if startsWithF objectType "List<" then
        (readListType (fun d t => readHex st n d t false) data
          (extractGenericType objectType "List<")).map (fun r => (.arr r.1, r.2))
      else if startsWithF objectType "array<" then
        match parseArrayType (handlerSubtype objectType "array") with
        | .error e => .error e
        | .ok (count, sub) =>
          (readArrayGo (fun d t => readHex st n d t false) data sub count).map
            (fun r => (.arr r.1, r.2))
      else if startsWithF objectType "vec<" then
        (readListType (fun d t => readHex st n d t false) data
          (handlerSubtype objectType "vec")).map (fun r => (.arr r.1, r.2))
      else if startsWithF objectType "Vec<" then
        (readListType (fun d t => readHex st n d t false) data
          (handlerSubtype objectType "Vec")).map (fun r => (.arr r.1, r.2))
      else if startsWithF objectType "variadic<" then
        readHex st n data (handlerSubtype objectType "variadic") originalTypeIsPrimitive
      else if startsWithF objectType "Option<" then
        readOptionType (fun d t => readHex st n d t false) data
          (handlerSubtype objectType "Option")
      else if startsWithF objectType "multi<" then
        (readMultiType (fun d t => readHex st n d t false) data
          (splitOnF (handlerSubtype objectType "multi") ",")).map (fun r => (.arr r.1, r.2))
      else if startsWithF objectType "tuple<" then
        (readMultiType (fun d t => readHex st n d t false) data
          (splitOnF (handlerSubtype objectType "tuple") ",")).map (fun r => (.arr r.1, r.2))
      else
        match lookupAbiType st.abi objectType with
        | some (.enumT variants) => readEnumType (fun d t => readHex st n d t false) data variants
        | some (.structT fields) => readStructType (fun d t => readHex st n d t false) data fields
        | some (.tupleT types) =>
          (readMultiType (fun d t => readHex st n d t false) data types).map
            (fun r => (.arr r.1, r.2))
        | some (.otherT _) => .error ("Unsupported type provided: " ++ objectType)
        | none => .error ("Unsupported type provided: " ++ objectType))

/-- The decode callback `readHex` hands to its helper readers at fuel `n`. -/
def readSub (st : ConvState) (n : Nat) : ReadFn :=
  fun d t => readHex st n d t false

/-- The anchored regex replace `responseType.replace(/^variadic<(.+)>$/, "$1")`
used to compute the top-level-primitive flag. -/
def stripVariadic (responseType : String) : String :=
  if startsWithF responseType "variadic<" && (endsWithF responseType ">"
      && 11 ≤ lengthF responseType) then
    dropRightF (dropF responseType 9) 1
  else responseType

/-- `AbiTypeConverter.chunks`: split into consecutive chunks of the given
size (`size` is always positive at the call site; the JavaScript
`Array.from({length: Infinity})` failure for size zero is not reachable). -/
def chunks (items : List α) (size : Nat) : List (List α) :=
  (List.range ((items.length + size - 1) / size)).map fun i => (items.drop (i * size)).take size

/-- `AbiTypeConverter.parseHexResponse`: the `variadic<multi<...>>`-with-comma
special case regroups the buffers into chunks of one per comma-separated
subtype and decodes field by field; otherwise each buffer is decoded
independently and a single result is returned unwrapped. -/
def parseHexResponse (st : ConvState) (fuel : Nat) (hexResponses : List (List Nat))
    (responseType : String) : Except String JValue :=
  let originalIsPrimitive := isPrimitiveType (stripVariadic responseType)
  if startsWithF responseType "variadic<multi<" && containsCharF responseType ',' then
    let objectTypes := splitOnF (dropRightF (dropF responseType 15) 2) ","
    let reorganized := chunks hexResponses objectTypes.length
    match mapME (fun chunk =>
        (mapME (fun p =>
          (readHex st fuel p.2 (trimF (objectTypes.getD p.1 ""))
            (isPrimitiveType (objectTypes.getD p.1 ""))).map Prod.fst) chunk.enum).map
          JValue.arr) reorganized with
    | .error e => .error e
    | .ok parsedResults => .ok (.arr parsedResults)
  else
    match mapME (fun hr =>
        (readHex st fuel hr responseType originalIsPrimitive).map Prod.fst) hexResponses with
    | .error e => .error e
    | .ok result =>
      .ok (match result with
        | [single] => single
        | _ => .arr result)

/-!
The `AbiWarpGenerator` (src/src/features/abi/helpers/abi-warp-generator.ts)
and its helpers from src/src/utils/generic.utils.ts and the Warp constants
(src/unnamed/part_011). -/

/-- Index of the first occurrence of a pattern in a character list. -/
def firstSubIdxGo (pat : List Char) : List Char → Nat → Option Nat
  | [], i => if pat.isEmpty then some i else none
  | c :: rest, i =>
    if pat.isPrefixOf (c :: rest) then some i else firstSubIdxGo pat rest (i + 1)

/-- Index of the first occurrence of a pattern. -/
def firstSubIdx (cs pat : List Char) : Option Nat :=
  firstSubIdxGo pat cs 0

/-- Index of the last occurrence of a character. -/
def lastIdxOfCharF (cs : List Char) (c : Char) : Option Nat :=
  match cs.reverse.indexOf? c with
  | none => none
  | some r => some (cs.length - 1 - r)

/-- Concatenation with separators (JavaScript `Array.prototype.join`). -/
def joinSepF (sep : String) : List String → String
  | [] => ""
  | [x] => x
  | x :: xs => x ++ sep ++ joinSepF sep xs

/-- `GenericUtils.capitalizeFirstLetter`. -/
def capitalizeFirstLetter (str : String) : String :=
  match str.data with
  | [] => ""
  | c :: rest => String.mk (c.toUpper :: rest)

/-- Whitespace-run collapsing (`replace(/\s+/g, " ")`); the counter is the
length of the text plus one. -/
def collapseWSGo : Nat → List Char → List Char
  | 0, _ => []
  | _ + 1, [] => []
  | f + 1, c :: rest =>
    if isWhiteF c then ' ' :: collapseWSGo f (rest.dropWhile isWhiteF)
    else c :: collapseWSGo f rest

/-- `GenericUtils.humanizeString`: underscores to spaces, a space before every
uppercase letter, whitespace collapsing and trimming, then capitalize the
first letter and lowercase the rest. -/
def humanizeString (str : String) : String :=
  if str == "" then ""
  else
    let h1 := str.data.map (fun c => if c == '_' then ' ' else c)
    let h2 := h1.flatMap (fun c => if c.isUpper then [' ', c] else [c])
    let h3 := (((collapseWSGo (h2.length + 1) h2).dropWhile
      isWhiteF).reverse.dropWhile isWhiteF).reverse
    match h3 with
    | [] => ""
    | c :: rest => String.mk (c.toUpper :: rest.map Char.toLower)

/-- `AbiWarpGenerator.getOrdinal`: JavaScript array indexing with a possibly
negative remainder (`(v - 20) % 10`), with the undefined-index fallback chain. -/
def getOrdinal (n : Nat) : String :=
  let suffixes := ["th", "st", "nd", "rd"]
  let v := n % 100
  let i : Int := (Int.ofNat v - 20).tmod 10
  let first : Option String := if 0 ≤ i then suffixes[i.toNat]? else none
  let second : Option String := suffixes[v]?
  toString n ++ ((match first with
    | some s => some s
    | none => second).getD "th")

/-- `AbiWarpGenerator.extractBaseType`: the last `:`-separated segment. -/
def extractBaseType (type : String) : String :=
  (splitOnF type ":").getLastD ""

/-- The replace of `/<.*>/g` with the empty string: remove the span from the
first `<` to the last `>` after it, if any. -/
def removeAngleSpanF (cs : List Char) : List Char :=
  match cs.indexOf? '<', lastIdxOfCharF cs '>' with
  | some i, some j => if i < j then cs.take i ++ cs.drop (j + 1) else cs
  | _, _ => cs

/-- `AbiWarpGenerator.getFriendlyTypeName`. -/
def getFriendlyTypeName (type : String) : String :=
  let baseType := String.mk ((removeAngleSpanF type.data).map Char.toLower)
  if includesStr baseType "composite" then "structured data"
  else
    let typeMap : List (String × String) :=
      [("address", "wallet address"), ("biguint", "number"), ("u64", "number"),
       ("u32", "number"), ("i64", "number"), ("i32", "number"), ("string", "text"),
       ("bool", "true/false value"), ("tokenidentifier", "token identifier"),
       ("egldoresdttokenidentifier", "token identifier"), ("esdt", "token amount"),
       ("nft", "NFT")]
    (((typeMap.find? (fun p => p.1 == baseType)).map (fun p => p.2)).getD type)

/-- The match of `/composite\((.+)\)/`: content from after the first
`composite(` to the last closing parenthesis, non-empty. -/
def compositeContentF (s : String) : Option String :=
  let cs := s.data
  match firstSubIdx cs "composite(".data with
  | none => none
  | some i =>
    let afterIdx := i + 10
    match lastIdxOfCharF cs ')' with
    | none => none
    | some j =>
      if afterIdx < j then some (String.mk ((cs.drop afterIdx).take (j - afterIdx)))
      else none

/-- The test of `/^u\d+$/`. -/
def isUNumF (s : String) : Bool :=
  match s.data with
  | 'u' :: ds => !ds.isEmpty && ds.all (fun c => c.isDigit)
  | _ => false

/-- `AbiWarpGenerator.identifyCompositePattern`: returns (description, usage)
or none. -/
def identifyCompositePattern (compositeType : String) : Option (String × String) :=
  match compositeContentF compositeType with
  | none => none
  | some content =>
    let parts := splitOnF content "|"
    if parts.any (fun p => containsCharF p ':') then none
    else
      let typeDescriptions := parts.map getFriendlyTypeName
      let description :=
        if 1 < typeDescriptions.length then
          joinSepF ", " typeDescriptions.dropLast ++ " and "
            ++ typeDescriptions.getLastD "" ++ " combination"
        else (typeDescriptions.headD "") ++ " value"
      let typeInstructions := parts.enum.map (fun p =>
        let ordinal := getOrdinal (p.1 + 1)
        let friendlyType := getFriendlyTypeName p.2
        let instruction := ordinal ++ ", provide a " ++ friendlyType
        if p.2 == "address" then instruction ++ " (starting with \"erd1\")"
        else if p.2 == "biguint" then instruction ++ " (a positive number)"
        else if p.2 == "tokenidentifier" || p.2 == "egldoresdttokenidentifier" then
          instruction ++ " (like \"EGLD\" or \"TOKEN-123456\")"
        else instruction)
      let usage := "For each entry: " ++ joinSepF "; " typeInstructions ++ "."
      some (description, usage)

/-- `AbiWarpGenerator.describeStructuredComposite`. A part without a `:` in a
composite that has one somewhere makes the JavaScript destructuring yield an
undefined field type, and the immediate `getFriendlyTypeName` call throws. -/
def describeStructuredComposite (compositeType : String) : Except String (Option String) :=
  match compositeContentF compositeType with
  | none => .ok none
  | some content =>
    let parts := splitOnF content "|"
    if !(parts.any (fun p => containsCharF p ':')) then .ok none
    else do
      let fieldDescriptions ← mapME (fun part =>
        let pieces := splitOnF part ":"
        let fieldName := pieces.headD ""
        match pieces[1]? with
        | none => .error "Cannot read properties of undefined (reading replace)"
        | some fieldType =>
          let friendlyType := getFriendlyTypeName fieldType
          let constraints :=
            if fieldType == "address" then " (a wallet address starting with \"erd1\")"
            else if fieldType == "biguint" || isUNumF fieldType then " (a positive number)"
            else if fieldType == "tokenidentifier" || fieldType == "token" then
              " (a token identifier)"
            else if fieldType == "bool" then " (true or false)"
            else ""
          .ok (humanizeString fieldName ++ " "
            ++ (if constraints != "" then constraints else "(" ++ friendlyType ++ ")"))) parts
      match fieldDescriptions with
      | [] => .ok none
      | [d] => .ok (some d)
      | [d1, d2] => .ok (some (d1 ++ " and " ++ d2))
      | ds => .ok (some (joinSepF ", " ds.dropLast ++ ", and " ++ ds.getLastD ""))

/-- The `WARP_CONSTANTS.TYPE_MAPPINGS` table (src/unnamed/part_011). -/
def warpTypeMappings : List (String × String) :=
  [("Address", "address"), ("BigUint", "biguint"), ("u8", "uint8"), ("i8", "int8"),
   ("u16", "uint16"), ("u32", "uint32"), ("u64", "uint64"), ("bool", "bool"),
   ("bytes", "string"), ("TokenIdentifier", "token"), ("EgldOrEsdtTokenIdentifier", "token")]

/-- The base-type conversion `TYPE_MAPPINGS[abiType] || abiType`. -/
def warpTypeMapping (abiType : String) : String :=
  (((warpTypeMappings.find? (fun p => p.1 == abiType)).map (fun p => p.2)).getD abiType)

/-- The `MULTIVERSX_ADDRESS` regex pattern constant. -/
def regexMultiversxAddress : String := "^erd1[a-zA-Z0-9]\x7b58\x7d$"

/-- The `TOKEN_IDENTIFIER` regex pattern constant. -/
def regexTokenIdentifier : String := "^(EGLD|[A-Z0-9]\x7b3,10\x7d(-[a-fA-F0-9]\x7b6\x7d)?)$"

/-- The bracket-matching loop of `AbiWarpGenerator.convertType`: scan from
`idx` with open-bracket count `count`, return the index one past the matching
closing bracket, or `none` when the string ends first (unmatched brackets). -/
def scanBrackets : List Char → Nat → Nat → Option Nat
  | [], _, _ => none
  | c :: rest, count, idx =>
    let count2 := if c == '<' then count + 1 else if c == '>' then count - 1 else count
    if count2 == 0 then some (idx + 1) else scanBrackets rest count2 (idx + 1)

/-- The `nestedTypesMapping` table of `convertType`, in `Object.entries`
order. -/
def nestedTypesMapping : List (String × String) :=
  [("Option<", "option:"), ("optional<", "optional:"), ("List<", "list:"),
   ("variadic<", "variadic:")]

/-- The content match `/multi<(.+)>/`: from after the first `multi<` to the
last closing angle bracket, non-empty. -/
def multiContentF (multiType : String) : Option String :=
  let cs := multiType.data
  match firstSubIdx cs "multi<".data with
  | none => none
  | some i =>
    let afterIdx := i + 6
    match lastIdxOfCharF cs '>' with
    | none => none
    | some j =>
      if afterIdx < j then some (String.mk ((cs.drop afterIdx).take (j - afterIdx)))
      else none

/-- The bracket-depth-aware comma split of `convertMultiType`; the depth
counter is a JavaScript number and may go negative. -/
def multiSplitGo : List Char → List Char → Int → List String
  | [], cur, _ =>
    let last := trimF (String.mk cur.reverse)
    if last != "" then [last] else []
  | ch :: rest, cur, count =>
    let count2 := if ch == '<' then count + 1 else if ch == '>' then count - 1 else count
    if ch == ',' && count2 == 0 then
      trimF (String.mk cur.reverse) :: multiSplitGo rest [] count2
    else
      multiSplitGo rest (ch :: cur) count2

/-- `AbiWarpGenerator.convertMultiType`, parameterized by the recursive
conversion `cv` (one fuel level lower). -/
def convertMultiType (cv : String → Except String String) (multiType : String) :
    Except String String :=
  if !(startsWithF multiType "multi<") then .error ("Invalid multi type format: " ++ multiType)
  else
    match multiContentF multiType with
    | none => .error ("Invalid multi type format: " ++ multiType)
    | some innerContent => do
      let types := multiSplitGo innerContent.data [] 0
      let convertedTypes ← mapME cv types
      .ok ("composite(" ++ joinSepF "|" convertedTypes ++ ")")

/-- `AbiWarpGenerator.convertCustomType`: enums collapse to the `u64`
descriptor, structs become named composites, an array registry entry has
`customType.type === undefined` and any other kind is unsupported. -/
def convertCustomType (cv : String → Except String String) :
    AbiCustomTypeF → Except String String
  | .enumT _ => .ok (warpTypeMapping "u64")
  | .structT fields => do
    let fieldTypes ← mapME (fun f => do
      let convertedType ← cv f.type
      .ok (f.name ++ ":" ++ convertedType)) fields
    .ok ("composite(" ++ joinSepF "|" fieldTypes ++ ")")
  | .tupleT _ => .error "Unsupported custom type: undefined"
  | .otherT kind => .error ("Unsupported custom type: " ++ kind)

/-- The wrapper-prefix loop of `convertType` over `nestedTypesMapping`:
`none` when no prefix matches, otherwise the converted result for the first
matching prefix (bracket matching, inner conversion with the `multi<` special
case, then `replacement ++ inner ++ remainder`). -/
def convertNestedGo (cv : String → Except String String) (abiType : String) :
    List (String × String) → Option (Except String String)
  | [] => none
  | (pat, rep) :: rest =>
    if startsWithF abiType pat then
      some (match scanBrackets (abiType.data.drop (lengthF pat)) 1 (lengthF pat) with
        | none => .error ("Invalid format: unmatched brackets in " ++ abiType)
        | some closingIndex =>
          let innerType := trimF (dropF (takeF abiType (closingIndex - 1)) (lengthF pat))
          let remainder := trimF (dropF abiType closingIndex)
          match (if startsWithF innerType "multi<" then convertMultiType cv innerType
                 else cv innerType) with
          | .error e => .error e
          | .ok convertedInner => .ok (rep ++ convertedInner ++ remainder))
    else convertNestedGo cv abiType rest

/-- The catch block of `AbiWarpGenerator.convertType`: every error is
re-thrown as a type-conversion failure. -/
def wrapConversionError : Except String String → Except String String
  | .ok r => .ok r
  | .error m => .error ("Type conversion failed: " ++ m)

/-- `AbiWarpGenerator.convertType`: empty-type guard outside the try, then
custom registry dispatch, `multi<` dispatch, the wrapper-prefix loop and the
base-type table, with the catch wrapping every error as a type-conversion
failure. The first argument of the recursion is the fuel. -/
def convertType (abi : AbiDefinitionF) : Nat → String → Except String String
  | 0, _ => .error "model: recursion fuel exhausted"
  | n + 1, abiType =>
    if abiType == "" then .error "ABI type is required"
    else
      wrapConversionError
        (match lookupAbiType abi abiType with
         | some ct => convertCustomType (fun t => convertType abi n t) ct
         | none =>
           if startsWithF abiType "multi<" then
             convertMultiType (fun t => convertType abi n t) abiType
           else
             match convertNestedGo (fun t => convertType abi n t) abiType nestedTypesMapping with
             | some r => r
             | none => .ok (warpTypeMapping abiType))

/-- `AbiWarpGenerator.createBotDescription`: the AI-facing description of an
input parameter. Errors of the inner `convertType` call and of
`describeStructuredComposite` propagate (there is no try/catch here). -/
def createBotDescription (abi : AbiDefinitionF) (fuel : Nat) (inputName inputType : String) :
    Except String String := do
  let humanizedName := humanizeString inputName
  let convertedType ← convertType abi fuel inputType
  let baseType := extractBaseType convertedType
  let friendlyType := getFriendlyTypeName baseType
  let constraints :=
    if baseType == "address" then " (must be a valid MultiversX address starting with \"erd1\")"
    else if friendlyType == "number" || isUNumF baseType then " (must be a positive number)"
    else if baseType == "tokenidentifier" then
      " (e.g., \"EGLD\" or a valid token identifier like \"TOKEN-123456\")"
    else ""
  if startsWithF convertedType "optional:" || startsWithF convertedType "option:" then
    pure ("An optional " ++ friendlyType ++ " for " ++ humanizedName ++ constraints
      ++ ". This parameter can be omitted.")
  else if startsWithF convertedType "list:" then
    let innerType := dropF convertedType 5
    let generic := "A list of " ++ getFriendlyTypeName (extractBaseType innerType)
      ++ " values for " ++ humanizedName ++ constraints
      ++ ". Provide multiple items separated by commas."
    if startsWithF innerType "composite(" then do
      let structuredComposite ← describeStructuredComposite innerType
      match structuredComposite with
      | some sc =>
        pure ("A list of structured entries for " ++ humanizedName
          ++ ", where each entry contains: " ++ sc ++ ".")
      | none =>
        match identifyCompositePattern innerType with
        | some pat => pure ("A list of " ++ pat.1 ++ " for " ++ humanizedName ++ ". " ++ pat.2)
        | none => pure generic
    else pure generic
  else if startsWithF convertedType "variadic:" then
    let innerType := dropF convertedType 9
    let generic := "One or more " ++ getFriendlyTypeName (extractBaseType innerType)
      ++ " values for " ++ humanizedName ++ constraints ++ ". You can provide multiple items."
    if startsWithF innerType "composite(" then do
      let structuredComposite ← describeStructuredComposite innerType
      match structuredComposite with
      | some sc =>
        pure ("Multiple structured entries for " ++ humanizedName
          ++ ". Each entry should contain: " ++ sc ++ ". You can provide multiple entries.")
      | none =>
        match identifyCompositePattern innerType with
        | some pat =>
          pure ("Multiple " ++ pat.1 ++ " for " ++ humanizedName ++ ". " ++ pat.2
            ++ " You can specify multiple entries.")
        | none => pure generic
    else pure generic
  else if startsWithF convertedType "composite(" then do
    let structuredComposite ← describeStructuredComposite convertedType
    match structuredComposite with
    | some sc => pure ("A structured entry for " ++ humanizedName ++ " containing: " ++ sc ++ ".")
    | none =>
      match identifyCompositePattern convertedType with
      | some pat => pure ("A " ++ pat.1 ++ " for " ++ humanizedName ++ ". " ++ pat.2)
      | none =>
        match compositeContentF convertedType with
        | some content =>
          let types := (splitOnF content "|").map getFriendlyTypeName
          pure ("A combined value for " ++ humanizedName ++ " containing: "
            ++ joinSepF " and " types ++ ".")
        | none => pure ("The " ++ friendlyType ++ " value for " ++ humanizedName
            ++ constraints ++ ".")
  else
    pure ("The " ++ friendlyType ++ " value for " ++ humanizedName ++ constraints ++ ".")

/-- The validation overrides returned by `AbiWarpGenerator.getInputValidations`
(the object later spread over the base input descriptor): a field is `some`
exactly when the JavaScript object carries the key. `modifier` carries an
inner Option because the source can assign `undefined` to the key. -/
structure InputValidationsF where
  min : Option Nat := none
  modifier : Option (Option String) := none
  pattern : Option String := none
  patternDescription : Option String := none
  typeOv : Option String := none
  requiredOv : Option Bool := none

/-- `AbiWarpGenerator.getInputValidations`: the `switch (true)` chain on the
last `:`-segment of the ABI type (first matching case wins), then the
`option:`/`optional:` required override. -/
def getInputValidations (input : AbiInputF) : InputValidationsF :=
  if input.type == "" then {}
  else
    let baseType := extractBaseType input.type
    let v : InputValidationsF :=
      if includesStr baseType "BigUint" then
        { min := some 0,
          modifier := some (if baseType == "BigUint" then some "scale:18" else none) }
      else if includesStr baseType "Address" then
        { pattern := some regexMultiversxAddress,
          patternDescription := some "Must be a valid MultiversX address" }
      else if includesStr baseType "TokenIdentifier"
          || includesStr baseType "EgldOrEsdtTokenIdentifier" then
        { pattern := some regexTokenIdentifier,
          patternDescription := some "Must be EGLD or a valid token identifier" }
      else if includesStr baseType "bool" then
        { typeOv := some "boolean" }
      else {}
    if startsWithF input.type "option:" || startsWithF input.type "optional:" then
      { v with requiredOv := some false }
    else v

/-- A Warp action input descriptor (`WarpActionInput`). -/
structure WarpActionInputF where
  name : String
  type : String
  position : String
  source : String
  required : Bool
  description : Option String := none
  bot : Option String := none
  min : Option Nat := none
  modifier : Option String := none
  options : Option (List String) := none
  pattern : Option String := none
  patternDescription : Option String := none

/-- The per-input body of `AbiWarpGenerator.transformInputs`: validation of
the indexed input, type conversion, bot description, and the validation
overrides spread over the base descriptor record. -/
def transformInput (abi : AbiDefinitionF) (fuel : Nat) (p : Nat × AbiInputF) :
    Except String WarpActionInputF :=
  if p.2.name == "" || p.2.type == "" then
    .error ("Invalid input at index " ++ toString p.1)
  else
    match convertType abi fuel p.2.type with
    | .error e => .error e
    | .ok ty =>
      match createBotDescription abi fuel p.2.name p.2.type with
      | .error e => .error e
      | .ok bot =>
        let v := getInputValidations p.2
        .ok { name := p.2.name,
              type := v.typeOv.getD ty,
              position := "arg:" ++ toString (p.1 + 1),
              source := "field",
              required := v.requiredOv.getD (!(startsWithF p.2.type "optional<")),
              description := some ("Input parameter for " ++ p.2.name),
              bot := some bot,
              min := v.min,
              modifier := v.modifier.getD none,
              pattern := v.pattern,
              patternDescription := v.patternDescription }

/-- `AbiWarpGenerator.transformInputs`: one descriptor per declared input, in
declaration order over the indexed list. -/
def transformInputs (abi : AbiDefinitionF) (fuel : Nat) (inputs : List AbiInputF) :
    Except String (List WarpActionInputF) :=
  mapME (transformInput abi fuel) inputs.enum

/-- `AbiWarpGenerator.createEgldInput`. -/
def createEgldInput (required : Bool) : WarpActionInputF :=
  { name := "egldAmount", type := "biguint", position := "value", source := "field",
    required := required,
    bot := some "Amount of EGLD to send",
    description := some ("Amount of EGLD to send" ++ (if required then "" else " (optional)")),
    min := some 0, modifier := some "scale:18" }

/-- `AbiWarpGenerator.createEsdtInput`. -/
def createEsdtInput (acceptedTokens : Option (List String)) : WarpActionInputF :=
  { name := "tokenAmount", type := "esdt", position := "transfer", source := "field",
    required := false,
    description := some (match acceptedTokens with
      | some ts => "Amount of tokens to send (" ++ joinSepF " or " ts ++ ")"
      | none => "Amount and type of tokens to send (optional)"),
    options := acceptedTokens,
    bot := some "Amount and token to send" }

/-- `AbiWarpGenerator.createPaymentInputs`: nothing when no payable tokens;
the wildcard `*` yields the token input followed by an optional EGLD input;
otherwise an EGLD input when EGLD is accepted, then a token input when any
non-EGLD token is accepted. -/
def createPaymentInputs (payableTokens : Option (List String)) : List WarpActionInputF :=
  match payableTokens with
  | none => []
  | some ps =>
    if ps.isEmpty then []
    else if ps.contains "*" then [createEsdtInput none, createEgldInput false]
    else
      let acceptedTokens := ps.filter (fun token => token != "EGLD")
      (if ps.contains "EGLD" then [createEgldInput true] else []) ++
      (if 0 < acceptedTokens.length then [createEsdtInput (some acceptedTokens)] else [])

/-- A generated Warp action. -/
structure WarpActionF where
  type : String
  label : String
  address : String
  func : String
  args : List String := []
  description : Option String := none
  inputs : List WarpActionInputF := []
  gasLimit : Option Nat := none

/-- A generated Warp document; the meta fields record the creator and the
construction-time timestamp captured by the generator instance. -/
structure WarpF where
  protocol : String
  name : String
  title : String
  description : String
  preview : String
  actions : List WarpActionF
  metaCreator : String
  metaCreatedAt : String

/-- Modelled: `Config.LatestProtocolVersion` from the external `@vleap/warps`
package (not part of this repository; no claim depends on its value). -/
def latestProtocolVersion : String := "warp:latest"

/-- The state captured by an `AbiWarpGenerator` instance: creator,
construction-time timestamp, and the optional ABI definition. -/
structure WarpGenState where
  creator : String := "system"
  createdAt : String := ""
  abi : Option AbiDefinitionF := none

/-- `AbiWarpGenerator.endpointToWarp`. -/
def endpointToWarp (abi : AbiDefinitionF) (meta : WarpGenState) (fuel : Nat)
    (contractAddress contractName : String) (endpoint : AbiEndpointF) :
    Except String WarpF :=
  if endpoint.name == "" then .error "Endpoint name is required"
  else
    let actionType := if endpoint.mutability == "readonly" then "query" else "contract"
    let paymentInputs := createPaymentInputs endpoint.payableInTokens
    match transformInputs abi fuel (endpoint.inputs.getD []) with
    | .error e => .error e
    | .ok regularInputs =>
    let action : WarpActionF :=
      { type := actionType, label := endpoint.name, address := contractAddress,
        func := endpoint.name, args := [],
        description := (endpoint.docs.map (fun ds => joinSepF "\n" ds)),
        inputs := paymentInputs ++ regularInputs,
        gasLimit := if actionType == "contract" then some 60000000 else none }
    let description :=
      match endpoint.docs with
      | some ds =>
        if 0 < ds.length then joinSepF "\n" ds
        else if actionType == "query" then "Query " ++ endpoint.name ++ " operation"
        else "Executes " ++ endpoint.name ++ " operation"
      | none =>
        if actionType == "query" then "Query " ++ endpoint.name ++ " operation"
        else "Executes " ++ endpoint.name ++ " operation"
    .ok { protocol := latestProtocolVersion,
          name := capitalizeFirstLetter endpoint.name ++ " on " ++ contractName,
          title := capitalizeFirstLetter endpoint.name ++ " operation",
          description := description,
          preview := "https://api.dicebear.com/7.x/icons/svg?seed=" ++ endpoint.name,
          actions := [action],
          metaCreator := meta.creator,
          metaCreatedAt := meta.createdAt }

/-- `AbiWarpGenerator.generateWarps`: address-format guard, ABI presence
guard, then one Warp per endpoint whose `onlyOwner` flag is falsy, in
declaration order. -/
def generateWarps (g : WarpGenState) (fuel : Nat) (contractAddress : String) :
    Except String (List WarpF) :=
  if !(startsWithF contractAddress "erd1") then .error "Invalid contract address format"
  else
    match g.abi with
    | none => .error "ABI is required"
    | some abi =>
      let publicEndpoints := abi.endpoints.filter (fun endpoint => !(endpoint.onlyOwner.getD false))
      mapME (fun endpoint =>
        endpointToWarp abi g fuel contractAddress abi.name endpoint) publicEndpoints

/-!
Shared lemmas and concrete fixtures used by the claim theorems. -/

/-- Success of `mapME` is pointwise success, in order. -/
theorem mapME_ok_iff {α β ε : Type _} {f : α → Except ε β} :
    ∀ {l : List α} {l' : List β},
      mapME f l = .ok l' ↔ List.Forall₂ (fun a b => f a = .ok b) l l' := by
  intro l
  induction l with
  | nil =>
    intro l'
    simp only [mapME]
    constructor
    · intro h
      cases h
      exact List.Forall₂.nil
    · intro h
      cases h
      rfl
  | cons x xs ih =>
    intro l'
    simp only [mapME]
    constructor
    · intro h
      cases hfx : f x with
      | error e => rw [hfx] at h; cases h
      | ok b =>
        rw [hfx] at h
        cases hrec : mapME f xs with
        | error e => rw [hrec] at h; cases h
        | ok bs =>
          rw [hrec] at h
          cases h
          exact List.Forall₂.cons hfx (ih.mp hrec)
    · intro h
      cases h with
      | cons hxy hrest =>
        rw [hxy, ih.mpr hrest]

/-- A hex digit round-trips through its character. -/
theorem hexDigitVal_hexDigitChar (x : Nat) (h : x < 16) : hexDigitVal (hexDigitChar x) = x := by
  interval_cases x <;> rfl

/-- Folding the hex digits of a byte list accumulates its big-endian value. -/
theorem natOfHex_foldl (data : List Nat) (h : ∀ b ∈ data, b < 256) :
    ∀ acc : Nat,
      ((data.flatMap fun b => [hexDigitChar (b / 16), hexDigitChar (b % 16)]).foldl
        (fun a c => a * 16 + hexDigitVal c) acc)
        = data.foldl (fun a b => a * 256 + b) acc := by
  induction data with
  | nil => intro acc; rfl
  | cons b bs ih =>
    intro acc
    have hb : b < 256 := h b (by simp)
    have h1 : b / 16 < 16 := by omega
    have h2 : b % 16 < 16 := by omega
    simp only [List.flatMap_cons, List.cons_append, List.nil_append, List.foldl_cons]
    rw [hexDigitVal_hexDigitChar _ h1, hexDigitVal_hexDigitChar _ h2]
    have heq : (acc * 16 + b / 16) * 16 + b % 16 = acc * 256 + b := by omega
    rw [heq, ih (fun y hy => h y (by simp [hy]))]

/-- The JavaScript `BigInt("0x" ++ buffer.toString("hex"))` round-trip equals
the big-endian value of the byte buffer. -/
theorem natOfHexStr_hexOfBytes (data : List Nat) (h : ∀ b ∈ data, b < 256) :
    natOfHexStr (hexOfBytes data) = bytesToNatBE data :=
  natOfHex_foldl data h 0

/-- A string that ends in a pattern includes the pattern. -/
theorem includesStr_append_self (x pat : String) : includesStr (x ++ pat) pat = true := by
  simp only [includesStr, List.any_eq_true]
  refine ⟨pat.data, ?_, ?_⟩
  · rw [List.mem_tails]
    refine ⟨x.data, ?_⟩
    cases x
    cases pat
    rfl
  · rw [List.isPrefixOf_iff_prefix]

/-- A type name that is not primitive is not the `Address` keyword. -/
theorem primNotAddress {ty : String} (h : isPrimitiveType ty = false) :
    (ty == "Address") = false := by
  cases hb : ty == "Address" with
  | false => rfl
  | true =>
    have he : ty = "Address" := eq_of_beq hb
    subst he
    exact absurd h (by decide)

/-- A converter instance over an ABI with an empty custom-type registry, used
in the concrete evaluations below. -/
def convDemo : ConvState := { abi := { name := "demo" } }

/-- An ABI definition with an empty registry, for the converter examples. -/
def abiDemo : AbiDefinitionF := { name := "demo" }

/-- C1: decoding `BigUint` with the top-level-primitive flag true interprets
the entire buffer as a big-endian arbitrary-precision unsigned integer and
returns its decimal string, consuming the whole buffer; with the flag false it
reads a 4-byte big-endian length prefix `L` and returns the next `L` bytes as
a hex string, consuming `L + 4` bytes; in particular `[0,0,0,0,0,0,0,5]` at
top level decodes to `"5"` and the nested `[0,0,0,1,0x05]` to `"05"`. -/
theorem claim_c1_biguint_asymmetry :
    (∀ (opts : ParseOptionsF) (data : List Nat), (∀ b ∈ data, b < 256) → data ≠ [] →
      readPrimitiveType opts data "BigUint" true
        = .ok (.str (toString (bytesToNatBE data)), data.length)) ∧
    (∀ (opts : ParseOptionsF) (data : List Nat) (len : Nat),
      readUInt32BEE data = .ok len →
      readPrimitiveType opts data "BigUint" false
        = .ok (.str (hexOfBytes ((data.drop 4).take len)), len + 4)) ∧
    readHex convDemo 2 [0, 0, 0, 0, 0, 0, 0, 5] "BigUint" true = .ok (.str "5", 8) ∧
    readHex convDemo 2 [0, 0, 0, 1, 5] "BigUint" false = .ok (.str "05", 5) := by
  refine ⟨?_, ?_, rfl, rfl⟩
  · intro opts data h256 hne
    cases data with
    | nil => exact absurd rfl hne
    | cons b bs =>
      calc readPrimitiveType opts (b :: bs) "BigUint" true
          = .ok (.str (toString (natOfHexStr (hexOfBytes (b :: bs)))), (b :: bs).length) := rfl
        _ = .ok (.str (toString (bytesToNatBE (b :: bs))), (b :: bs).length) := by
            rw [natOfHexStr_hexOfBytes (b :: bs) h256]
  · intro opts data len hlen
    have h1 : readPrimitiveType opts data "BigUint" false
        = (readUInt32BEE data >>= fun len2 =>
            .ok (.str (hexOfBytes ((data.drop 4).take len2)), len2 + 4)) := rfl
    rw [h1, hlen]
    rfl

/-- Witness for C1 at concrete buffers: `[1,0]` at top level is decimal 256
over the whole 2-byte buffer; a nested buffer with length prefix 2 and bytes
`0xab 0xcd` yields the hex string `"abcd"` consuming 6 bytes. -/
theorem claim_c1_biguint_asymmetry_witness :
    readPrimitiveType {} [1, 0] "BigUint" true = .ok (.str "256", 2) ∧
    readPrimitiveType {} [0, 0, 0, 2, 171, 205] "BigUint" false = .ok (.str "abcd", 6) := by
  constructor
  · exact claim_c1_biguint_asymmetry.1 {} [1, 0] (by decide) (by decide)
  · exact claim_c1_biguint_asymmetry.2.1 {} [0, 0, 0, 2, 171, 205] 2 rfl

/-- C9: the signed integer type names decode exactly as their unsigned
counterparts of the same width, for every buffer and flag (the decoder uses
unsigned big-endian readers for all widths), and the single byte `0xFF`
decoded as `i8` yields 255, not -1. -/
theorem claim_c9_signed_unsigned_identical :
    (∀ (opts : ParseOptionsF) (data : List Nat) (orig : Bool),
      readPrimitiveType opts data "i8" orig = readPrimitiveType opts data "u8" orig) ∧
    (∀ (opts : ParseOptionsF) (data : List Nat) (orig : Bool),
      readPrimitiveType opts data "i16" orig = readPrimitiveType opts data "u16" orig) ∧
    (∀ (opts : ParseOptionsF) (data : List Nat) (orig : Bool),
      readPrimitiveType opts data "i32" orig = readPrimitiveType opts data "u32" orig) ∧
    (∀ (opts : ParseOptionsF) (data : List Nat) (orig : Bool),
      readPrimitiveType opts data "i64" orig = readPrimitiveType opts data "u64" orig) ∧
    readHex convDemo 1 [255] "i8" true = .ok (.num 255, 1) :=
  ⟨fun _ _ _ => rfl, fun _ _ _ => rfl, fun _ _ _ => rfl, fun _ _ _ => rfl, rfl⟩

/-- C2 (amended): the early same-buffer wrapper strip applies only to type
names starting with `optional<` (recursing on the inner type with the same
buffer, flag reset); a name starting with `Option<` is instead dispatched to
`readOptionType`, which reads a one-byte presence flag: `0` decodes to null
consuming one byte, nonzero decodes the inner type from the tail consuming
one extra byte. -/
theorem claim_c2_optional_strip_amended :
    (∀ (st : ConvState) (n : Nat) (data : List Nat) (ty : String) (orig : Bool),
      data ≠ [] → startsWithF ty "optional<" = true →
      readHex st (n + 1) data ty orig
        = wrapTypeError ty (readHex st n data (extractGenericType ty "optional<") false)) ∧
    (∀ (st : ConvState) (n : Nat) (data : List Nat) (ty : String) (orig : Bool),
      data ≠ [] →
      startsWithF ty "optional<" = false → isPrimitiveType ty = false →
      startsWithF ty "List<" = false → startsWithF ty "array<" = false →
      startsWithF ty "vec<" = false → startsWithF ty "Vec<" = false →
      startsWithF ty "variadic<" = false → startsWithF ty "Option<" = true →
      readHex st (n + 1) data ty orig
        = wrapTypeError ty (readOptionType (readSub st n) data (handlerSubtype ty "Option"))) ∧
    (∀ (rd : ReadFn) (sub : String) (rest : List Nat),
      readOptionType rd (0 :: rest) sub = .ok (.null, 1)) ∧
    (∀ (rd : ReadFn) (sub : String) (b : Nat) (rest : List Nat) (v : JValue) (l : Nat),
      b ≠ 0 → rd rest sub = .ok (v, l) →
      readOptionType rd (b :: rest) sub = .ok (v, l + 1)) := by
  refine ⟨?_, ?_, ?_, ?_⟩
  · intro st n data ty orig hne hopt
    cases data with
    | nil => exact absurd rfl hne
    | cons b bs =>
      simp only [readHex]
      simp [hopt]
  · intro st n data ty orig hne hopt hprim hList harr hvec hVec hvar hOpt
    have hA := primNotAddress hprim
    cases data with
    | nil => exact absurd rfl hne
    | cons b bs =>
      simp only [readHex]
      simp [hopt, hprim, hA, hList, harr, hvec, hVec, hvar, hOpt]
      rfl
  · intro rd sub rest
    rfl
  · intro rd sub b rest v l hb hrd
    have hbeq : (b == 0) = false := by simp [hb]
    simp only [readOptionType, hbeq]
    rw [hrd]
    rfl

/-- Counterexample to C2 as stated: decoding `[1, 42]` as `Option<u8>` is not
the same-buffer decode of the inner `u8` — the wrapper consumes the one-byte
presence flag, yielding `(42, 2)` while the inner decode of the same buffer
yields `(1, 1)`. -/
theorem claim_c2_option_strip_counterexample :
    readHex convDemo 5 [1, 42] "Option<u8>" false = .ok (.num 42, 2) ∧
    readHex convDemo 5 [1, 42] "u8" false = .ok (.num 1, 1) ∧
    readHex convDemo 5 [1, 42] "Option<u8>" false ≠ readHex convDemo 5 [1, 42] "u8" false := by
  refine ⟨rfl, rfl, ?_⟩
  intro h
  rw [show readHex convDemo 5 [1, 42] "Option<u8>" false = .ok (.num 42, 2) from rfl,
      show readHex convDemo 5 [1, 42] "u8" false = .ok (.num 1, 1) from rfl] at h
  simp at h

/-- Witness for the amended C2: `optional<u8>` is stripped on the same buffer;
`Option<u8>` over a zero flag byte decodes to null consuming one byte. -/
theorem claim_c2_optional_strip_amended_witness :
    readHex convDemo 3 [5] "optional<u8>" false
      = wrapTypeError "optional<u8>" (readHex convDemo 2 [5] "u8" false) ∧
    readHex convDemo 3 [0, 9] "Option<u8>" false = .ok (.null, 1) := by
  constructor
  · exact claim_c2_optional_strip_amended.1 convDemo 2 [5] "optional<u8>" false
      (by decide) (by decide)
  · have h2 := claim_c2_optional_strip_amended.2.1 convDemo 2 [0, 9] "Option<u8>" false
      (by decide) (by decide) (by decide) (by decide) (by decide) (by decide) (by decide)
      (by decide) (by decide)
    rw [h2]
    rfl

/-- A concatenation of non-empty lists has at least as many elements as parts. -/
theorem length_le_flatten_length {α : Type _} :
    ∀ (encs : List (List α)), (∀ e ∈ encs, e ≠ []) → encs.length ≤ encs.flatten.length := by
  intro encs
  induction encs with
  | nil => intro _; simp
  | cons e es ih =>
    intro h
    have he : e ≠ [] := h e (by simp)
    have h1 : 1 ≤ e.length := by
      cases e
      · exact absurd rfl he
      · simp
    have h2 := ih (fun x hx => h x (by simp [hx]))
    simp only [List.length_cons, List.flatten_cons, List.length_append]
    omega

/-- Loop invariant behind C5: with enough loop counter, the list reader over a
concatenation of self-delimiting encodings returns the item values in order
and consumes the whole buffer. -/
theorem readListGo_concat (st : ConvState) (n : Nat) (sub : String) :
    ∀ (encs : List (List Nat)) (vals : List JValue) (k : Nat),
      (∀ enc ∈ encs, enc ≠ []) →
      List.Forall₂ (fun enc v => ∀ tail, readHex st n (enc ++ tail) sub false
        = .ok (v, enc.length)) encs vals →
      encs.length < k →
      readListGo (readSub st n) k encs.flatten sub = .ok (vals, encs.flatten.length) := by
  intro encs
  induction encs with
  | nil =>
    intro vals k hne hf hk
    cases hf
    match k, hk with
    | k + 1, _ => rfl
  | cons e es ih =>
    intro vals k hne hf hk
    cases hf with
    | cons hv hrest =>
      match k, hk with
      | k + 1, hk =>
        have hlen : es.length < k := by
          simp only [List.length_cons] at hk
          omega
        have hene : e ≠ [] := hne e (by simp)
        have hemp : (e ++ es.flatten).isEmpty = false := by
          cases e
          · exact absurd rfl hene
          · rfl
        show readListGo (readSub st n) (k + 1) (e ++ es.flatten) sub
          = .ok (_ :: _, (e ++ es.flatten).length)
        simp only [readListGo, hemp]
        have h1 : readSub st n (e ++ es.flatten) sub = .ok (_, e.length) := hv es.flatten
        rw [h1]
        show (readListGo (readSub st n) k ((e ++ es.flatten).drop e.length) sub).bind _ = _
        rw [List.drop_left]
        rw [ih _ k (fun x hx => hne x (by simp [hx])) hrest hlen]
        simp [List.length_append, Bind.bind, Except.bind]

/-- C5: decoding a buffer formed by concatenating N non-empty encoded `T`
values (each of which the decoder reads off any tail consuming exactly its own
length) as a `List<T>` yields the N values in order, consuming the entire
buffer; the wrapper reads no count prefix and decodes until exhaustion. -/
theorem claim_c5_list_concat :
    ∀ (st : ConvState) (n : Nat) (sub : String) (encs : List (List Nat)) (vals : List JValue),
      (∀ enc ∈ encs, enc ≠ []) →
      List.Forall₂ (fun enc v => ∀ tail, readHex st n (enc ++ tail) sub false
        = .ok (v, enc.length)) encs vals →
      readListType (readSub st n) encs.flatten sub = .ok (vals, encs.flatten.length) ∧
      vals.length = encs.length := by
  intro st n sub encs vals hne hf
  refine ⟨?_, hf.length_eq.symm⟩
  apply readListGo_concat st n sub encs vals _ hne hf
  have := length_le_flatten_length encs hne
  omega

/-- Witness for C5: the concatenation of two one-byte `u8` encodings decodes
as a two-element list consuming both bytes. -/
theorem claim_c5_list_concat_witness :
    readListType (readSub convDemo 1) [7, 8] "u8" = .ok ([.num 7, .num 8], 2) ∧
    ([JValue.num 7, JValue.num 8].length = 2) := by
  have h := claim_c5_list_concat convDemo 1 "u8" [[7], [8]] [.num 7, .num 8]
    (by decide)
    (List.Forall₂.cons (fun tail => rfl) (List.Forall₂.cons (fun tail => rfl) List.Forall₂.nil))
  exact ⟨h.1, h.2⟩

/-- C4: decoding an enum reads one discriminant byte `k` and selects the k-th
declared variant (0-indexed); a variant without fields decodes to its bare
name consuming 1 byte; a variant with fields decodes to a one-key record with
the fields decoded in declared order from the tail, consuming
`1 + fieldsConsumed` bytes; and `readHex` dispatches a registry enum name to
this reader. -/
theorem claim_c4_enum_decode :
    (∀ (rd : ReadFn) (k : Nat) (rest : List Nat) (variants : List AbiVariantF)
       (v : AbiVariantF), variants[k]? = some v →
       (v.fields = none → readEnumType rd (k :: rest) variants = .ok (.str v.name, 1)) ∧
       (∀ fs flds m, v.fields = some fs →
         readFieldsGo rd rest fs = .ok (flds, m) →
         readEnumType rd (k :: rest) variants
           = .ok (.obj [(v.name, .obj flds)], 1 + m))) ∧
    (∀ (rd : ReadFn) (data : List Nat) (f : AbiFieldF) (fs : List AbiFieldF)
       (v : JValue) (len : Nat) (flds : List (String × JValue)) (total : Nat),
      rd data f.type = .ok (v, len) →
      readFieldsGo rd (data.drop len) fs = .ok (flds, total) →
      readFieldsGo rd data (f :: fs) = .ok ((f.name, v) :: flds, len + total)) ∧
    (∀ (st : ConvState) (n : Nat) (data : List Nat) (ty : String) (orig : Bool)
       (variants : List AbiVariantF),
      data ≠ [] →
      startsWithF ty "optional<" = false → isPrimitiveType ty = false →
      startsWithF ty "List<" = false → startsWithF ty "array<" = false →
      startsWithF ty "vec<" = false → startsWithF ty "Vec<" = false →
      startsWithF ty "variadic<" = false → startsWithF ty "Option<" = false →
      startsWithF ty "multi<" = false → startsWithF ty "tuple<" = false →
      lookupAbiType st.abi ty = some (.enumT variants) →
      readHex st (n + 1) data ty orig
        = wrapTypeError ty (readEnumType (readSub st n) data variants)) := by
  refine ⟨?_, ?_, ?_⟩
  · intro rd k rest variants v hv
    constructor
    · intro hnone
      simp only [readEnumType, hv, hnone]
    · intro fs flds m hfs hflds
      simp only [readEnumType, hv, hfs]
      rw [hflds]
      rfl
  · intro rd data f fs v len flds total h1 h2
    simp only [readFieldsGo]
    rw [h1]
    show (readFieldsGo rd (data.drop len) fs).bind _ = _
    rw [h2]
    rfl
  · intro st n data ty orig variants hne hopt hprim hList harr hvec hVec hvar hOpt hmul htup hlook
    have hA := primNotAddress hprim
    cases data with
    | nil => exact absurd rfl hne
    | cons b bs =>
      simp only [readHex]
      simp [hopt, hprim, hA, hList, harr, hvec, hVec, hvar, hOpt, hmul, htup, hlook]
      rfl

/-- A two-variant enum (one bare, one with fields) for the C4 witness. -/
def colorVariants : List AbiVariantF :=
  [⟨"Red", none⟩, ⟨"Mix", some [⟨"x", "u8"⟩, ⟨"y", "u16"⟩]⟩]

/-- A converter whose registry holds the `Color` enum. -/
def convColor : ConvState := { abi := { name := "demo", types := [("Color", .enumT colorVariants)] } }

/-- Witness for C4: discriminant 0 gives the bare name `Red`; discriminant 1
gives the one-key `Mix` record with fields `x` (u8) and `y` (u16) in order,
consuming 4 bytes; and `readHex` reaches the enum reader for `Color`. -/
theorem claim_c4_enum_decode_witness :
    readEnumType (readSub convColor 4) [0, 9] colorVariants = .ok (.str "Red", 1) ∧
    readEnumType (readSub convColor 4) [1, 7, 0, 2] colorVariants
      = .ok (.obj [("Mix", .obj [("x", .num 7), ("y", .num 2)])], 4) ∧
    readHex convColor 5 [1, 7, 0, 2] "Color" false
      = wrapTypeError "Color" (readEnumType (readSub convColor 4) [1, 7, 0, 2] colorVariants) := by
  refine ⟨?_, ?_, ?_⟩
  · exact (claim_c4_enum_decode.1 (readSub convColor 4) 0 [9] colorVariants ⟨"Red", none⟩
      rfl).1 rfl
  · exact (claim_c4_enum_decode.1 (readSub convColor 4) 1 [7, 0, 2] colorVariants
      ⟨"Mix", some [⟨"x", "u8"⟩, ⟨"y", "u16"⟩]⟩ rfl).2 [⟨"x", "u8"⟩, ⟨"y", "u16"⟩]
      [("x", .num 7), ("y", .num 2)] 3 rfl rfl
  · exact claim_c4_enum_decode.2.2 convColor 4 [1, 7, 0, 2] "Color" false colorVariants
      (by decide) (by decide) (by decide) (by decide) (by decide) (by decide) (by decide)
      (by decide) (by decide) (by decide) (by decide) rfl

/-- An error coming out of a `readHex` level is always wrapped with that
level's type name. -/
theorem wrapTypeError_error {ty : String} {r : Except String (JValue × Nat)} {m : String}
    (h : wrapTypeError ty r = .error m) :
    ∃ inner, m = "Failed to parse type " ++ ty ++ ": " ++ inner := by
  cases r with
  | ok v => simp [wrapTypeError] at h
  | error e =>
    simp [wrapTypeError] at h
    exact ⟨e, h.symm⟩

/-- C8: a non-empty buffer decoded at a type name that is not primitive, not a
supported wrapper form and not a registry key fails with an error whose
message contains the offending type name (no silent defaulting); and every
error surfacing from a decode level is re-thrown wrapped with that level's
type name. -/
theorem claim_c8_unknown_type_error :
    (∀ (st : ConvState) (n : Nat) (data : List Nat) (ty : String) (orig : Bool),
      data ≠ [] →
      startsWithF ty "optional<" = false → isPrimitiveType ty = false →
      startsWithF ty "List<" = false → startsWithF ty "array<" = false →
      startsWithF ty "vec<" = false → startsWithF ty "Vec<" = false →
      startsWithF ty "variadic<" = false → startsWithF ty "Option<" = false →
      startsWithF ty "multi<" = false → startsWithF ty "tuple<" = false →
      lookupAbiType st.abi ty = none →
      readHex st (n + 1) data ty orig
        = .error ("Failed to parse type " ++ ty ++ ": "
            ++ ("Unsupported type provided: " ++ ty)) ∧
      includesStr ("Failed to parse type " ++ ty ++ ": "
        ++ ("Unsupported type provided: " ++ ty)) ty = true) ∧
    (∀ (st : ConvState) (n : Nat) (data : List Nat) (ty : String) (orig : Bool) (m : String),
      readHex st (n + 1) data ty orig = .error m →
      ∃ inner, m = "Failed to parse type " ++ ty ++ ": " ++ inner) := by
  constructor
  · intro st n data ty orig hne hopt hprim hList harr hvec hVec hvar hOpt hmul htup hlook
    have hA := primNotAddress hprim
    constructor
    · cases data with
      | nil => exact absurd rfl hne
      | cons b bs =>
        simp only [readHex]
        simp [hopt, hprim, hA, hList, harr, hvec, hVec, hvar, hOpt, hmul, htup, hlook,
          wrapTypeError]
    · have hshape : "Failed to parse type " ++ ty ++ ": "
          ++ ("Unsupported type provided: " ++ ty)
          = (("Failed to parse type " ++ ty ++ ": ") ++ "Unsupported type provided: ") ++ ty := by
        simp only [String.append_assoc]
      rw [hshape]
      exact includesStr_append_self _ ty
  · intro st n data ty orig m h
    simp only [readHex] at h
    exact wrapTypeError_error h

/-- Witness for C8 on the unknown type name `FooBar`. -/
theorem claim_c8_unknown_type_error_witness :
    readHex convDemo 3 [3] "FooBar" false
      = .error ("Failed to parse type " ++ "FooBar" ++ ": "
          ++ ("Unsupported type provided: " ++ "FooBar")) ∧
    includesStr ("Failed to parse type " ++ "FooBar" ++ ": "
      ++ ("Unsupported type provided: " ++ "FooBar")) "FooBar" = true := by
  exact claim_c8_unknown_type_error.1 convDemo 2 [3] "FooBar" false (by decide) (by decide)
    (by decide) (by decide) (by decide) (by decide) (by decide) (by decide) (by decide)
    (by decide) (by decide) rfl

/-- C3: for a response type of the form `variadic<multi<T1,...,Tk>>` (a comma
present), the buffers are regrouped into consecutive chunks of size k (k = the
number of comma-separated subtypes derived exactly as the source does), the
i-th buffer of each chunk is decoded against the i-th subtype, and the result
is the array of per-chunk arrays — never the flattened or single-value form. -/
theorem claim_c3_variadic_multi_chunking :
    ∀ (st : ConvState) (fuel : Nat) (bs : List (List Nat)) (responseType : String)
      (rows : List (List JValue)),
      startsWithF responseType "variadic<multi<" = true →
      containsCharF responseType ',' = true →
      List.Forall₂ (fun chunk row => List.Forall₂ (fun p v => ∃ m,
          readHex st fuel p.2
            (trimF ((splitOnF (dropRightF (dropF responseType 15) 2) ",").getD p.1 ""))
            (isPrimitiveType ((splitOnF (dropRightF (dropF responseType 15) 2) ",").getD p.1 ""))
            = .ok (v, m)) chunk.enum row)
        (chunks bs (splitOnF (dropRightF (dropF responseType 15) 2) ",").length) rows →
      parseHexResponse st fuel bs responseType = .ok (.arr (rows.map JValue.arr)) := by
  intro st fuel bs responseType rows h1 h2 hdec
  have hcond : (startsWithF responseType "variadic<multi<"
      && containsCharF responseType ',') = true := by rw [h1, h2]; rfl
  have hmain : mapME (fun chunk =>
      (mapME (fun p =>
        (readHex st fuel p.2
          (trimF ((splitOnF (dropRightF (dropF responseType 15) 2) ",").getD p.1 ""))
          (isPrimitiveType
            ((splitOnF (dropRightF (dropF responseType 15) 2) ",").getD p.1 ""))).map
          Prod.fst) chunk.enum).map JValue.arr)
      (chunks bs (splitOnF (dropRightF (dropF responseType 15) 2) ",").length)
      = .ok (rows.map JValue.arr) := by
    apply mapME_ok_iff.mpr
    rw [List.forall₂_map_right_iff]
    refine List.Forall₂.imp ?_ hdec
    intro chunk row hP
    have hrow : mapME (fun p =>
        (readHex st fuel p.2
          (trimF ((splitOnF (dropRightF (dropF responseType 15) 2) ",").getD p.1 ""))
          (isPrimitiveType
            ((splitOnF (dropRightF (dropF responseType 15) 2) ",").getD p.1 ""))).map
          Prod.fst) chunk.enum = .ok row := by
      apply mapME_ok_iff.mpr
      refine List.Forall₂.imp ?_ hP
      intro p v hpv
      obtain ⟨m, hm⟩ := hpv
      rw [hm]
      rfl
    rw [hrow]
    rfl
  simp only [parseHexResponse, hcond, if_true]
  rw [hmain]

/-- Witness for C3: four buffers against `variadic<multi<u8,u16>>` regroup
into two chunks of two and decode to an array of two two-element arrays. -/
theorem claim_c3_variadic_multi_chunking_witness :
    parseHexResponse convDemo 2 [[7], [0, 1], [8], [0, 2]] "variadic<multi<u8,u16>>"
      = .ok (.arr [.arr [.num 7, .num 1], .arr [.num 8, .num 2]]) := by
  have h := claim_c3_variadic_multi_chunking convDemo 2 [[7], [0, 1], [8], [0, 2]]
    "variadic<multi<u8,u16>>" [[.num 7, .num 1], [.num 8, .num 2]] (by decide) (by decide)
    (List.Forall₂.cons
      (List.Forall₂.cons ⟨1, rfl⟩ (List.Forall₂.cons ⟨2, rfl⟩ List.Forall₂.nil))
      (List.Forall₂.cons
        (List.Forall₂.cons ⟨1, rfl⟩ (List.Forall₂.cons ⟨2, rfl⟩ List.Forall₂.nil))
        List.Forall₂.nil))
  exact h

/-- C6: for a type name starting with one of the wrapper prefixes `Option<`,
`optional<`, `List<`, `variadic<` (tried in that fixed order), `convertType`
finds the matching closing angle bracket by bracket-depth counting, converts
the inner substring recursively, and returns the prefix replacement
(`option:`/`optional:`/`list:`/`variadic:`) followed by the converted inner
type and the remainder after the bracket; in particular
`convertType "List<Option<BigUint>>" = "list:option:biguint"`. -/
theorem claim_c6_convert_wrappers :
    (∀ (abi : AbiDefinitionF) (n : Nat) (ty : String) (r : Except String String),
      (ty == "") = false →
      lookupAbiType abi ty = none →
      startsWithF ty "multi<" = false →
      convertNestedGo (fun t => convertType abi n t) ty nestedTypesMapping = some r →
      convertType abi (n + 1) ty = wrapConversionError r) ∧
    (∀ (cv : String → Except String String) (ty : String) (ci : Nat) (c : String),
      startsWithF ty "Option<" = true →
      scanBrackets (ty.data.drop 7) 1 7 = some ci →
      (if startsWithF (trimF (dropF (takeF ty (ci - 1)) 7)) "multi<" then
         convertMultiType cv (trimF (dropF (takeF ty (ci - 1)) 7))
       else cv (trimF (dropF (takeF ty (ci - 1)) 7))) = .ok c →
      convertNestedGo cv ty nestedTypesMapping
        = some (.ok ("option:" ++ c ++ trimF (dropF ty ci)))) ∧
    (∀ (cv : String → Except String String) (ty : String) (ci : Nat) (c : String),
      startsWithF ty "Option<" = false →
      startsWithF ty "optional<" = true →
      scanBrackets (ty.data.drop 9) 1 9 = some ci →
      (if startsWithF (trimF (dropF (takeF ty (ci - 1)) 9)) "multi<" then
         convertMultiType cv (trimF (dropF (takeF ty (ci - 1)) 9))
       else cv (trimF (dropF (takeF ty (ci - 1)) 9))) = .ok c →
      convertNestedGo cv ty nestedTypesMapping
        = some (.ok ("optional:" ++ c ++ trimF (dropF ty ci)))) ∧
    (∀ (cv : String → Except String String) (ty : String) (ci : Nat) (c : String),
      startsWithF ty "Option<" = false →
      startsWithF ty "optional<" = false →
      startsWithF ty "List<" = true →
      scanBrackets (ty.data.drop 5) 1 5 = some ci →
      (if startsWithF (trimF (dropF (takeF ty (ci - 1)) 5)) "multi<" then
         convertMultiType cv (trimF (dropF (takeF ty (ci - 1)) 5))
       else cv (trimF (dropF (takeF ty (ci - 1)) 5))) = .ok c →
      convertNestedGo cv ty nestedTypesMapping
        = some (.ok ("list:" ++ c ++ trimF (dropF ty ci)))) ∧
    (∀ (cv : String → Except String String) (ty : String) (ci : Nat) (c : String),
      startsWithF ty "Option<" = false →
      startsWithF ty "optional<" = false →
      startsWithF ty "List<" = false →
      startsWithF ty "variadic<" = true →
      scanBrackets (ty.data.drop 9) 1 9 = some ci →
      (if startsWithF (trimF (dropF (takeF ty (ci - 1)) 9)) "multi<" then
         convertMultiType cv (trimF (dropF (takeF ty (ci - 1)) 9))
       else cv (trimF (dropF (takeF ty (ci - 1)) 9))) = .ok c →
      convertNestedGo cv ty nestedTypesMapping
        = some (.ok ("variadic:" ++ c ++ trimF (dropF ty ci)))) ∧
    convertType abiDemo 4 "List<Option<BigUint>>" = .ok "list:option:biguint" := by
  refine ⟨?_, ?_, ?_, ?_, ?_, rfl⟩
  · intro abi n ty r hne hlook hmul hng
    simp only [convertType, hne, hlook, hmul, hng]
    rfl
  · intro cv ty ci c hOpt hscan hc
    simp only [convertNestedGo, nestedTypesMapping,
      show lengthF "Option<" = 7 from rfl, hOpt, hscan, hc, if_true]
  · intro cv ty ci c hOpt hopt hscan hc
    simp only [convertNestedGo, nestedTypesMapping,
      show lengthF "optional<" = 9 from rfl, hOpt, hopt, hscan, hc,
      if_true, Bool.false_eq_true, if_false]
  · intro cv ty ci c hOpt hopt hList hscan hc
    simp only [convertNestedGo, nestedTypesMapping,
      show lengthF "List<" = 5 from rfl, hOpt, hopt, hList, hscan, hc,
      if_true, Bool.false_eq_true, if_false]
  · intro cv ty ci c hOpt hopt hList hvar hscan hc
    simp only [convertNestedGo, nestedTypesMapping,
      show lengthF "variadic<" = 9 from rfl, hOpt, hopt, hList, hvar, hscan, hc,
      if_true, Bool.false_eq_true, if_false]

/-- Witness for C6 at `List<u8>`: the closing bracket is found at index 8, the
inner `u8` converts to `uint8`, and the result is `list:uint8`. -/
theorem claim_c6_convert_wrappers_witness :
    convertNestedGo (fun t => convertType abiDemo 1 t) "List<u8>" nestedTypesMapping
      = some (.ok "list:uint8") ∧
    convertType abiDemo 2 "List<u8>" = .ok "list:uint8" := by
  have hng := claim_c6_convert_wrappers.2.2.2.1 (fun t => convertType abiDemo 1 t)
    "List<u8>" 8 "uint8" (by decide) (by decide) (by decide) rfl rfl
  constructor
  · exact hng
  · exact claim_c6_convert_wrappers.1 abiDemo 1 "List<u8>" (.ok "list:uint8")
      (by decide) rfl (by decide) hng

/-- C10: when `generateWarps` succeeds, the contract address passed the
`erd1` format check and the result has exactly one Warp per endpoint whose
`onlyOwner` flag is falsy, in declaration order (each produced by
`endpointToWarp`); an endpoint with `onlyOwner = true` is silently excluded
from the list being transformed. -/
theorem claim_c10_only_owner_filtered :
    ∀ (g : WarpGenState) (abi : AbiDefinitionF) (fuel : Nat) (addr : String) (ws : List WarpF),
      g.abi = some abi →
      generateWarps g fuel addr = .ok ws →
      startsWithF addr "erd1" = true ∧
      List.Forall₂ (fun ep w => (ep.onlyOwner.getD false = false ∧
          endpointToWarp abi g fuel addr abi.name ep = .ok w))
        (abi.endpoints.filter (fun ep => !(ep.onlyOwner.getD false))) ws ∧
      ws.length = (abi.endpoints.filter (fun ep => !(ep.onlyOwner.getD false))).length ∧
      (∀ ep ∈ abi.endpoints, ep.onlyOwner = some true →
        ep ∉ abi.endpoints.filter (fun ep2 => !(ep2.onlyOwner.getD false))) := by
  intro g abi fuel addr ws habi hgen
  have haddr : startsWithF addr "erd1" = true := by
    cases h : startsWithF addr "erd1" with
    | false =>
      rw [generateWarps, h] at hgen
      cases hgen
    | true => rfl
  have hm : mapME (fun ep => endpointToWarp abi g fuel addr abi.name ep)
      (abi.endpoints.filter (fun ep => !(ep.onlyOwner.getD false))) = .ok ws := by
    rw [generateWarps, haddr, habi] at hgen
    exact hgen
  have hf := mapME_ok_iff.mp hm
  refine ⟨haddr, ?_, hf.length_eq.symm, ?_⟩
  · rw [List.forall₂_iff_get] at hf ⊢
    refine ⟨hf.1, fun i h1 h2 => ⟨?_, hf.2 i h1 h2⟩⟩
    have hmem := List.get_mem (abi.endpoints.filter (fun ep => !(ep.onlyOwner.getD false))) i h1
    have hp := List.of_mem_filter hmem
    simpa using hp
  · intro ep hmem howner
    simp [List.mem_filter, howner]

/-- A public readonly endpoint for the C10 witness. -/
def epPub1 : AbiEndpointF := { name := "alpha", mutability := "readonly" }

/-- An owner-only endpoint for the C10 witness. -/
def epOwn : AbiEndpointF := { name := "admin", mutability := "mutable", onlyOwner := some true }

/-- A public mutable endpoint for the C10 witness. -/
def epPub2 : AbiEndpointF := { name := "beta", mutability := "mutable" }

/-- An ABI with two public endpoints around an owner-only one. -/
def abiGen : AbiDefinitionF := { name := "Demo", endpoints := [epPub1, epOwn, epPub2] }

/-- A generator instance holding `abiGen`. -/
def genDemo : WarpGenState := { abi := some abiGen }

/-- Witness for C10: of three endpoints, one owner-only, exactly two Warps
are generated. -/
theorem claim_c10_only_owner_filtered_witness :
    ∃ ws, generateWarps genDemo 3 "erd1qqq" = .ok ws ∧
      ws.length = (abiGen.endpoints.filter (fun ep => !(ep.onlyOwner.getD false))).length ∧
      ws.length = 2 := by
  obtain ⟨ws, hws⟩ : ∃ ws, generateWarps genDemo 3 "erd1qqq" = .ok ws := ⟨_, rfl⟩
  have h := claim_c10_only_owner_filtered genDemo abiGen 3 "erd1qqq" ws rfl hws
  refine ⟨ws, hws, h.2.2.1, ?_⟩
  rw [h.2.2.1]
  rfl

/-- A successful single-input transform carries position arg:(index+1) and
the declared name. -/
theorem transformInput_ok {abi : AbiDefinitionF} {fuel : Nat} {p : Nat × AbiInputF}
    {r : WarpActionInputF} (h : transformInput abi fuel p = .ok r) :
    r.position = "arg:" ++ toString (p.1 + 1) ∧ r.name = p.2.name := by
  simp only [transformInput] at h
  split at h
  · cases h
  · split at h
    · cases h
    · split at h
      · cases h
      · cases h
        exact ⟨rfl, rfl⟩

/-- A successful `transformInputs` yields one descriptor per declared input,
in declaration order, with 1-based arg positions. -/
theorem transformInputs_ok {abi : AbiDefinitionF} {fuel : Nat} {inputs : List AbiInputF}
    {regs : List WarpActionInputF} (h : transformInputs abi fuel inputs = .ok regs) :
    regs.length = inputs.length ∧
    ∀ i (hi : i < regs.length),
      (regs.get ⟨i, hi⟩).position = "arg:" ++ toString (i + 1) ∧
      ∀ (hi2 : i < inputs.length),
        (regs.get ⟨i, hi⟩).name = (inputs.get ⟨i, hi2⟩).name := by
  have hf := mapME_ok_iff.mp h
  have hlen : inputs.enum.length = regs.length := hf.length_eq
  refine ⟨by rw [← hlen, List.enum_length], ?_⟩
  intro i hi
  rw [List.forall₂_iff_get] at hf
  have hi1 : i < inputs.enum.length := by rw [hlen]; exact hi
  have hP := hf.2 i hi1 hi
  rw [List.get_enum] at hP
  have hio := transformInput_ok hP
  exact ⟨hio.1, fun hi2 => hio.2⟩

/-- Names and positions of the payment inputs, by case on the payable-token
list. -/
theorem createPaymentInputs_shape (payable : Option (List String)) :
    (createPaymentInputs payable).map (fun q => (q.name, q.position))
      = (if (payable.getD []).contains "*" = true then
           [("tokenAmount", "transfer"), ("egldAmount", "value")]
         else
           (if (payable.getD []).contains "EGLD" = true then [("egldAmount", "value")] else [])
           ++ (if ((payable.getD []).filter (fun t => t != "EGLD")).isEmpty = true then []
               else [("tokenAmount", "transfer")])) := by
  cases payable with
  | none => rfl
  | some ps =>
    simp only [Option.getD_some]
    cases ps with
    | nil => rfl
    | cons t ts =>
      have e0 : createPaymentInputs (some (t :: ts))
          = (if (t :: ts).contains "*" = true then [createEsdtInput none, createEgldInput false]
             else (if (t :: ts).contains "EGLD" = true then [createEgldInput true] else [])
               ++ (if 0 < ((t :: ts).filter (fun token => token != "EGLD")).length
                   then [createEsdtInput (some ((t :: ts).filter (fun token => token != "EGLD")))]
                   else [])) := rfl
      rw [e0]
      by_cases hstar : "*" ∈ (t :: ts)
      · simp [hstar, createEsdtInput, createEgldInput]
      · by_cases hegld : "EGLD" ∈ (t :: ts) <;>
          by_cases hfe : (t :: ts).filter (fun token => token != "EGLD") = [] <;>
          simp [hstar, hegld, hfe, List.isEmpty_iff, List.length_pos,
            createEsdtInput, createEgldInput]

/-- C7: a successful `endpointToWarp` yields a single action whose input list
is the payment inputs followed by one descriptor per declared input in
declaration order, the i-th carrying position `arg:(i+1)` and the declared
name; the payment block is an EGLD amount input when EGLD is accepted and a
token amount/selector input when any non-EGLD token or the `*` wildcard is. -/
theorem claim_c7_payment_then_args
    (abi : AbiDefinitionF) (meta : WarpGenState) (fuel : Nat)
    (contractAddress contractName : String) (ep : AbiEndpointF) (w : WarpF)
    (h : endpointToWarp abi meta fuel contractAddress contractName ep = .ok w) :
    ∃ regs,
      transformInputs abi fuel (ep.inputs.getD []) = .ok regs ∧
      w.actions.map (fun a => a.inputs)
        = [createPaymentInputs ep.payableInTokens ++ regs] ∧
      (createPaymentInputs ep.payableInTokens).map (fun q => (q.name, q.position))
        = (if (ep.payableInTokens.getD []).contains "*" = true then
             [("tokenAmount", "transfer"), ("egldAmount", "value")]
           else
             (if (ep.payableInTokens.getD []).contains "EGLD" = true then
                [("egldAmount", "value")] else [])
             ++ (if ((ep.payableInTokens.getD []).filter (fun t => t != "EGLD")).isEmpty = true
                 then [] else [("tokenAmount", "transfer")])) ∧
      regs.length = (ep.inputs.getD []).length ∧
      ∀ i (hi : i < regs.length),
        (regs.get ⟨i, hi⟩).position = "arg:" ++ toString (i + 1) ∧
        ∀ (hi2 : i < (ep.inputs.getD []).length),
          (regs.get ⟨i, hi⟩).name = ((ep.inputs.getD []).get ⟨i, hi2⟩).name := by
  simp only [endpointToWarp] at h
  split at h
  · cases h
  · split at h
    · cases h
    · cases h
      rename_i regs heq
      obtain ⟨hlen, hpt⟩ := transformInputs_ok heq
      exact ⟨regs, heq, rfl, createPaymentInputs_shape ep.payableInTokens, hlen, hpt⟩

/-- A payable endpoint with two declared inputs, for the C7 witness. -/
def epSwap : AbiEndpointF :=
  { name := "swap", mutability := "mutable",
    payableInTokens := some ["EGLD", "TOK-123456"],
    inputs := some [{ name := "amountIn", type := "BigUint" },
                    { name := "receiver", type := "Address" }] }

/-- Witness for C7: on a payable endpoint with inputs amountIn, receiver the
generated action lists EGLD and token payment inputs first, then arg:1 and
arg:2 descriptors in declaration order. -/
theorem claim_c7_payment_then_args_witness :
    ∃ w, endpointToWarp abiGen genDemo 3 "erd1qqq" "Demo" epSwap = .ok w ∧
      ∃ regs, transformInputs abiGen 3 (epSwap.inputs.getD []) = .ok regs ∧
        w.actions.map (fun a => a.inputs)
          = [createPaymentInputs epSwap.payableInTokens ++ regs] ∧
        regs.length = 2 ∧
        (createPaymentInputs epSwap.payableInTokens ++ regs).map
            (fun q => (q.name, q.position))
          = [("egldAmount", "value"), ("tokenAmount", "transfer"),
             ("amountIn", "arg:1"), ("receiver", "arg:2")] := by
  obtain ⟨w, hw⟩ : ∃ w, endpointToWarp abiGen genDemo 3 "erd1qqq" "Demo" epSwap = .ok w :=
    ⟨_, rfl⟩
  obtain ⟨regs0, hregs0⟩ :
      ∃ r, transformInputs abiGen 3 (epSwap.inputs.getD []) = .ok r := ⟨_, rfl⟩
  obtain ⟨regs, hregs, hact, _hsh, hlen, _hpt⟩ :=
    claim_c7_payment_then_args abiGen genDemo 3 "erd1qqq" "Demo" epSwap w hw
  have hre : regs0 = regs := by
    injection hregs0.symm.trans hregs
  subst hre
  refine ⟨w, hw, regs0, hregs, hact, hlen.trans rfl, ?_⟩
  have hmap : (transformInputs abiGen 3 (epSwap.inputs.getD [])).map
      (List.map (fun q => (q.name, q.position)))
      = .ok [("amountIn", "arg:1"), ("receiver", "arg:2")] := rfl
  rw [hregs0] at hmap
  simp only [Except.map] at hmap
  injection hmap with hm
  rw [List.map_append, hm]
  rfl
